import Mathlib

/-
Verification development for the Total-Jobs crawler.

The crawl orchestration core is embedded shallowly: the request handler, the
failure handler and the guarded save of the canonical revision (the variant
defining saveJobRecord) become Lean functions over an explicit CrawlState,
while the HTTP transport, the HTML parser and the dataset sink stay abstract,
exactly as in the source, where they are collaborator calls.  URLs are
abstracted to the two shapes the crawler distinguishes by regular expression:
absolute job detail links and listing URLs with their page query parameter.
Raw bodies and error messages are kept as strings so that the keyword tests of
the source run verbatim on them.
-/

namespace TotalJobs

/-! ## Page classification

The handler classifies request URLs with two regular expressions:
a detail test for the pattern slash job slash slug slash slug dash job digits,
and a listing test for a slash jobs slash segment, applied only when the
detail test fails.  The matchers below implement exactly those two patterns
with full backtracking over the character list of the URL. -/

/-- matchSlug k cs holds when cs splits into a nonempty run of characters other
than a slash followed by a remainder accepted by k; this is the regex piece
for one slug with backtracking. -/
def matchSlug (k : List Char → Bool) : List Char → Bool
  | [] => false
  | c :: rest =>
    if c = '/' then false
    else k rest || matchSlug k rest

/-- tailJobDigits cs holds when cs begins with the literal dash job followed by
at least one ASCII digit, the tail of the detail pattern. -/
def tailJobDigits : List Char → Bool
  | '-' :: 'j' :: 'o' :: 'b' :: d :: _ => d.isDigit
  | _ => false

/-- detailAt cs holds when the detail pattern matches at the head of cs. -/
def detailAt : List Char → Bool
  | '/' :: 'j' :: 'o' :: 'b' :: '/' :: rest =>
    matchSlug
      (fun r2 =>
        match r2 with
        | '/' :: r3 => matchSlug tailJobDigits r3
        | _ => false)
      rest
  | _ => false

/-- hasDetailPattern cs holds when the detail pattern occurs anywhere in cs,
matching the unanchored regex test of the source. -/
def hasDetailPattern : List Char → Bool
  | [] => false
  | c :: rest => detailAt (c :: rest) || hasDetailPattern rest

/-- jobsSlashAt cs holds when cs begins with the literal slash jobs slash. -/
def jobsSlashAt : List Char → Bool
  | '/' :: 'j' :: 'o' :: 'b' :: 's' :: '/' :: _ => true
  | _ => false

/-- hasJobsSegment cs holds when slash jobs slash occurs anywhere in cs. -/
def hasJobsSegment : List Char → Bool
  | [] => false
  | c :: rest => jobsSlashAt (c :: rest) || hasJobsSegment rest

/-- The three page classes of the link classifier. -/
inductive PageClass
  | Detail
  | Listing
  | Other
deriving DecidableEq, Repr

/-- classify url mirrors the head of requestHandler: isDetailPage is the detail
regex on the URL, isListPage requires the jobs segment and a failed detail
test, so the detail pattern takes precedence by construction. -/
def classify (url : String) : PageClass :=
  if hasDetailPattern url.data then PageClass.Detail
  else if hasJobsSegment url.data then PageClass.Listing
  else PageClass.Other

/-! ## JavaScript string truthiness and the or-else chains -/

/-- truthy o models JavaScript truthiness of a nullable string: null and the
empty string are falsy. -/
def truthy : Option String → Bool
  | none => false
  | some s => !(s == "")

/-- jsOr a b models the JavaScript or-else operator on nullable strings. -/
def jsOr (a b : Option String) : Option String :=
  if truthy a then a else b

/-- jsNorm a models appending an or-else null in JavaScript: a falsy value
collapses to null. -/
def jsNorm (a : Option String) : Option String :=
  if truthy a then a else none

/-- resolveField j s d mirrors the per-field or-chains of the detail handler:
the JSON-LD field, else the seed field, else the first matching DOM text, else
null. -/
def resolveField (j s d : Option String) : Option String :=
  if truthy j then j
  else if truthy s then s
  else if truthy d then d
  else none

/-! ## Case-insensitive substring tests

The source classifies bodies and error messages with case-insensitive
alternation regexes; each alternative is a plain substring, so the tests are
substring searches over the lower-cased text. -/

/-- leadsWith pat cs holds when pat is an initial segment of cs. -/
def leadsWith : List Char → List Char → Bool
  | [], _ => true
  | _ :: _, [] => false
  | p :: ps, c :: cs => p == c && leadsWith ps cs

/-- hasSub pat cs holds when pat occurs as a contiguous run inside cs. -/
def hasSub (pat : List Char) : List Char → Bool
  | [] => leadsWith pat []
  | c :: cs => leadsWith pat (c :: cs) || hasSub pat cs

/-- lowerChars maps every character to lower case, for the case-insensitive
tests. -/
def lowerChars (cs : List Char) : List Char :=
  cs.map Char.toLower

/-- containsCI pat s holds when pat, given in lower case, occurs in s ignoring
case. -/
def containsCI (pat : String) (s : String) : Bool :=
  hasSub pat.data (lowerChars s.data)

/-- isBlockedOrError html mirrors the blocked-page check of the detail branch:
a missing or short body, or a blocking keyword in the lower-cased leading
thousand characters. -/
def isBlockedOrError (html : String) : Bool :=
  html.length < 500 ||
    (let lead := lowerChars (html.data.take 1000)
     hasSub ("access denied").data lead || hasSub ("blocked").data lead ||
       hasSub ("captcha").data lead || hasSub ("error").data lead)

/-! ## Failure message classification

failedRequestHandler derives its booleans from the status code and the error
message. -/

/-- is403or429 mirrors the blocked test: status 403 or 429, or the blocked
alternation regex on the message. -/
def is403or429 (statusCode : Nat) (message : String) : Bool :=
  statusCode == 403 || statusCode == 429 ||
    containsCI "403" message || containsCI "429" message ||
    containsCI "blocked" message

/-- isTimeoutMsg mirrors the timeout alternation regex. -/
def isTimeoutMsg (message : String) : Bool :=
  containsCI "timed out" message || containsCI "timeout" message

/-- isSocketMsg mirrors the socket error alternation regex. -/
def isSocketMsg (message : String) : Bool :=
  containsCI "socket hang up" message || containsCI "econnreset" message ||
    containsCI "etimedout" message

/-- isHttp2Msg mirrors the nghttp2 test. -/
def isHttp2Msg (message : String) : Bool :=
  containsCI "nghttp2" message

/-- isNetworkMsg mirrors the network error test: http2 or socket errors, or
the DNS alternation regex. -/
def isNetworkMsg (message : String) : Bool :=
  isHttp2Msg message || isSocketMsg message ||
    containsCI "enotfound" message || containsCI "eai_again" message

/-! ## JSON-LD structured data

extractJsonLd walks the ld json script blocks in document order; a block
parses to an array of items or a single item, or fails.  The parse itself is a
collaborator, so a block is embedded as the optional list of items it parses
to, and an item carries exactly the fields extractJsonLd reads. -/

/-- The type tag of a JSON-LD item: absent, a single string, or an array of
strings. -/
inductive LdType
  | absent
  | str (s : String)
  | arr (ss : List String)
deriving DecidableEq, Repr

/-- isJobPostingType follows the test in extractJsonLd: the tag equals
JobPosting, or is an array that includes it. -/
def isJobPostingType : LdType → Bool
  | LdType.absent => false
  | LdType.str s => s == "JobPosting"
  | LdType.arr ss => ss.contains "JobPosting"

/-- A parsed JSON-LD item, restricted to the fields extractJsonLd reads; the
tag already folds the at-type and type properties the code reads with an
or-else. -/
structure LdItem where
  tag : LdType
  title : Option String := none
  name : Option String := none
  orgName : Option String := none
  locality : Option String := none
  region : Option String := none
  datePosted : Option String := none
  description : Option String := none
  salaryValueValue : Option String := none
  salaryValue : Option String := none
  employmentType : Option String := none
deriving DecidableEq, Repr

/-- The record extractJsonLd returns for the matched JobPosting item. -/
structure LdRecord where
  title : Option String
  company : Option String
  location : Option String
  date_posted : Option String
  description_html : Option String
  salary : Option String
  job_type : Option String
deriving DecidableEq, Repr

/-- ldRecordOf item mirrors the object literal returned by extractJsonLd,
with every JavaScript or-else null chain made explicit. -/
def ldRecordOf (it : LdItem) : LdRecord :=
  { title := jsNorm (jsOr it.title it.name)
    company := jsNorm it.orgName
    location := jsNorm (jsOr it.locality it.region)
    date_posted := jsNorm it.datePosted
    description_html := jsNorm it.description
    salary := jsNorm (jsOr it.salaryValueValue it.salaryValue)
    job_type := jsNorm it.employmentType }

/-- findJobPosting scans the script blocks in document order, skipping failed
parses, and returns the first item whose tag is a JobPosting. -/
def findJobPosting : List (Option (List LdItem)) → Option LdItem
  | [] => none
  | none :: rest => findJobPosting rest
  | some items :: rest =>
    match items.find? (fun it => isJobPostingType it.tag) with
    | some it => some it
    | none => findJobPosting rest

/-- extractJsonLd returns the record of the first JobPosting item across the
blocks, or null when none parses to one. -/
def extractJsonLd (blocks : List (Option (List LdItem))) : Option LdRecord :=
  (findJobPosting blocks).map ldRecordOf

/-- ldField reads one field through the optional chaining of the handler. -/
def ldField (ld : Option LdRecord) (f : LdRecord → Option String) : Option String :=
  ld.bind f

/-! ## Crawl data model

The crawler manipulates URLs only through the two regular expressions above,
set membership, and the page query parameter surgery of pagination.  A URL is
therefore abstracted to its shape: an absolute job link built from an href
matching the detail pattern, or a listing URL with its page parameter
distinguished; the two shapes are exactly the two classifier outcomes for the
URLs the crawler enqueues. -/

/-- A URL in one of the two shapes the crawler enqueues. -/
inductive Url
  | job (href : String)
  | listing (base : String) (page : Nat)
deriving DecidableEq, Repr

/-- Seed data captured from a listing card, carried to the detail fetch. -/
structure Seed where
  title : Option String := none
  company : Option String := none
  location : Option String := none
  salary : Option String := none
  date_posted : Option String := none
deriving DecidableEq, Repr

/-- An output record with the field layout pushed to the dataset. -/
structure JobRecord where
  title : Option String
  company : Option String
  location : Option String
  salary : Option String
  date_posted : Option String
  job_type : Option String
  job_category : Option String
  description_html : Option String
  description_text : Option String
  job_url : Option Url
deriving DecidableEq, Repr

/-- A frontier entry: a listing target with its requeue attempt counter, or a
detail target carrying its seed. -/
inductive Target
  | listingT (base : String) (page : Nat) (requeueAttempt : Nat)
  | detailT (url : Url) (seed : Seed)
deriving DecidableEq, Repr

/-- The URL of a frontier entry. -/
def targetUrl : Target → Url
  | Target.listingT base page _ => Url.listing base page
  | Target.detailT url _ => url

/-- Run configuration: the target record count, the page budget, the listing
only switch, and the block recovery delay range. -/
structure Config where
  resultsWanted : Nat
  maxPages : Nat
  collectDetails : Bool
  blockDelayMin : Nat := 5000
  blockDelayMax : Nat := 9000
deriving DecidableEq, Repr

/-- The process-wide crawl state: the saved counter, the page counter, the
three URL sets, the output sink, and the frontier queue. -/
structure CrawlState where
  saved : Nat
  pagesVisited : Nat
  seenUrls : List Url
  failedUrls : List Url
  savedJobUrls : List Url
  dataset : List JobRecord
  queue : List Target
deriving DecidableEq, Repr

/-- addUrl models adding to a JavaScript Set: a no-op when already present. -/
def addUrl (u : Url) (l : List Url) : List Url :=
  if u ∈ l then l else u :: l

/-- saveJobRecord mirrors the guarded save: reject a record missing its url or
title, reject once the saved counter has reached the target, reject an
already saved job url; otherwise push the record, remember its url and bump
the counter, reporting whether a push happened. -/
def saveJobRecord (cfg : Config) (st : CrawlState) (r : JobRecord) :
    CrawlState × Bool :=
  match r.job_url with
  | none => (st, false)
  | some u =>
    if !(truthy r.title) then (st, false)
    else if cfg.resultsWanted ≤ st.saved then (st, false)
    else if u ∈ st.savedJobUrls then (st, false)
    else
      ({ st with
          dataset := st.dataset ++ [r]
          savedJobUrls := u :: st.savedJobUrls
          saved := st.saved + 1 },
       true)

/-! ## The listing branch of requestHandler -/

/-- A candidate job link found on a listing page: an href that matched the
detail pattern, and the seed scraped from its card by the first non empty
selector rule (the DOM scrape itself is a collaborator). -/
structure JobLink where
  href : String
  seed : Seed
deriving DecidableEq, Repr

/-- collectJobLinks mirrors the anchor loop of the listing branch: each href
whose absolute URL is in neither seenUrls nor failedUrls is added to seenUrls
on the spot and kept, in page order. -/
def collectJobLinks (st : CrawlState) : List JobLink → CrawlState × List JobLink
  | [] => (st, [])
  | l :: rest =>
    if Url.job l.href ∈ st.seenUrls ∨ Url.job l.href ∈ st.failedUrls then
      collectJobLinks st rest
    else
      ((collectJobLinks { st with seenUrls := Url.job l.href :: st.seenUrls } rest).1,
       l :: (collectJobLinks { st with seenUrls := Url.job l.href :: st.seenUrls } rest).2)

/-- seedRecord builds the listing-derived record the fallback paths save: the
seed fields, null detail fields, and the given job url. -/
def seedRecord (seed : Seed) (u : Url) : JobRecord :=
  { title := seed.title
    company := seed.company
    location := seed.location
    salary := seed.salary
    date_posted := seed.date_posted
    job_type := none
    job_category := none
    description_html := none
    description_text := none
    job_url := some u }

/-- saveFromListing mirrors the listing-only save loop, with its break once the
saved counter reaches the target. -/
def saveFromListing (cfg : Config) (st : CrawlState) : List JobLink → CrawlState
  | [] => st
  | l :: rest =>
    if cfg.resultsWanted ≤ st.saved then st
    else
      saveFromListing cfg
        (saveJobRecord cfg st (seedRecord l.seed (Url.job l.href))).1 rest

/-- tryEnqueueNextPage mirrors the pagination block: derive the next page URL
by bumping the page parameter and enqueue it unless it was already seen,
recording it as seen when enqueueing. -/
def tryEnqueueNextPage (st : CrawlState) (base : String) (page : Nat) :
    CrawlState :=
  if Url.listing base (page + 1) ∈ st.seenUrls then st
  else
    { st with
        seenUrls := Url.listing base (page + 1) :: st.seenUrls
        queue := st.queue ++ [Target.listingT base (page + 1) 0] }

/-- enqueueDetails mirrors the buffered detail enqueue: at most one and a half
times the still needed count of kept links become detail targets. -/
def enqueueDetails (cfg : Config) (st : CrawlState) (kept : List JobLink) :
    CrawlState :=
  let needed := cfg.resultsWanted - st.saved
  let bufferSize := max 1 ((3 * needed + 1) / 2)
  let toEnqueue := kept.take (min bufferSize kept.length)
  { st with
      queue := st.queue ++
        toEnqueue.map (fun l => Target.detailT (Url.job l.href) l.seed) }

/-- processLinks dispatches the kept links as the listing branch does: the
buffered detail enqueue when details are collected, the listing-only save
loop when not, and nothing when no link was kept. -/
def processLinks (cfg : Config) (st2 : CrawlState) (kept : List JobLink) :
    CrawlState :=
  if cfg.collectDetails && !kept.isEmpty then enqueueDetails cfg st2 kept
  else if !cfg.collectDetails && !kept.isEmpty then saveFromListing cfg st2 kept
  else st2

/-- paginate mirrors the pagination gate at the end of the listing branch: the
next page is attempted only while the page counter is below the budget. -/
def paginate (cfg : Config) (st3 : CrawlState) (base : String) (page : Nat) :
    CrawlState :=
  if st3.pagesVisited < cfg.maxPages then tryEnqueueNextPage st3 base page
  else st3

/-- handleListing mirrors the listing branch of requestHandler: the quota early
return, the page counter increment, the page budget early return, the link
collection, either the buffered detail enqueue or the listing-only save loop,
and the pagination gate. -/
def handleListing (cfg : Config) (st : CrawlState) (base : String) (page : Nat)
    (links : List JobLink) : CrawlState :=
  if cfg.resultsWanted ≤ st.saved then st
  else if cfg.maxPages < st.pagesVisited + 1 then
    { st with pagesVisited := st.pagesVisited + 1 }
  else
    paginate cfg
      (processLinks cfg
        (collectJobLinks { st with pagesVisited := st.pagesVisited + 1 } links).1
        (collectJobLinks { st with pagesVisited := st.pagesVisited + 1 } links).2)
      base page

/-! ## The detail branch of requestHandler -/

/-- The environment-supplied outcome of a detail fetch: the raw body, the
parsed JSON-LD blocks, the first non empty DOM selector text per field, the
description container lookup, the text rendering collaborator, and the final
URL after redirects. -/
structure DetailContent where
  html : String
  blocks : List (Option (List LdItem))
  domTitle : Option String
  domCompany : Option String
  domLocation : Option String
  domSalary : Option String
  domDatePosted : Option String
  domJobType : Option String
  domDescriptionHtml : String
  textOf : String → String
  domJobCategory : Option String
  loadedUrl : Option Url

/-- resolveDescriptionHtml mirrors the description choice: the JSON-LD
description when truthy, else the located DOM container, else empty. -/
def resolveDescriptionHtml (ld : Option LdRecord) (dom : String) : String :=
  let fromLd :=
    match ldField ld LdRecord.description_html with
    | some s => s
    | none => ""
  if fromLd == "" then dom else fromLd

/-- detailRecord builds the record of the detail branch: every field resolved
through the JSON-LD, seed, DOM precedence, the special-cased description, and
the final URL as job url. -/
def detailRecord (url : Url) (seed : Seed) (c : DetailContent) : JobRecord :=
  { title := resolveField (ldField (extractJsonLd c.blocks) LdRecord.title)
      seed.title c.domTitle
    company := resolveField (ldField (extractJsonLd c.blocks) LdRecord.company)
      seed.company c.domCompany
    location := resolveField (ldField (extractJsonLd c.blocks) LdRecord.location)
      seed.location c.domLocation
    salary := resolveField (ldField (extractJsonLd c.blocks) LdRecord.salary)
      seed.salary c.domSalary
    date_posted :=
      resolveField (ldField (extractJsonLd c.blocks) LdRecord.date_posted)
        seed.date_posted c.domDatePosted
    job_type := resolveField (ldField (extractJsonLd c.blocks) LdRecord.job_type)
      none c.domJobType
    job_category := jsNorm c.domJobCategory
    description_html :=
      some (resolveDescriptionHtml (extractJsonLd c.blocks) c.domDescriptionHtml)
    description_text :=
      some
        (if resolveDescriptionHtml (extractJsonLd c.blocks) c.domDescriptionHtml == ""
         then ""
         else c.textOf
           (resolveDescriptionHtml (extractJsonLd c.blocks) c.domDescriptionHtml))
    job_url := some (c.loadedUrl.getD url) }

/-- saveAndMarkFailed runs the guarded save and, exactly when a record was
pushed, adds the request URL to failedUrls, as both fallback save sites do. -/
def saveAndMarkFailed (cfg : Config) (st : CrawlState) (r : JobRecord)
    (url : Url) : CrawlState :=
  if (saveJobRecord cfg st r).2 then
    { (saveJobRecord cfg st r).1 with
        failedUrls := addUrl url (saveJobRecord cfg st r).1.failedUrls }
  else (saveJobRecord cfg st r).1

/-- handleDetail mirrors the detail branch of requestHandler: the quota early
return, the blocked-page check with its seed fallback save, otherwise the
layered field resolution, the incomplete record drop, and the guarded save. -/
def handleDetail (cfg : Config) (st : CrawlState) (url : Url) (seed : Seed)
    (c : DetailContent) : CrawlState :=
  if cfg.resultsWanted ≤ st.saved then st
  else if isBlockedOrError c.html && truthy seed.title then
    saveAndMarkFailed cfg st (seedRecord seed (c.loadedUrl.getD url)) url
  else if !(truthy (detailRecord url seed c).title) then
    { st with failedUrls := addUrl url st.failedUrls }
  else (saveJobRecord cfg st (detailRecord url seed c)).1

/-! ## failedRequestHandler -/

/-- The failure description handed to failedRequestHandler: the failed URL,
the status code and message of the error, the seed and requeue counter from
the request user data, and the final URL when navigation got that far. -/
structure FailureInfo where
  url : Url
  statusCode : Nat
  message : String
  seed : Option Seed
  loadedUrl : Option Url
  requeueAttempt : Nat

/-- The session and delay effects of a failure, as the handler performs them
on the session pool collaborator. -/
structure FailAction where
  sessionRetired : Bool
  sessionMarkedBad : Bool
  delayMin : Nat
  delayMax : Nat
deriving DecidableEq, Repr

/-- scheduleNextPageFallback mirrors the graceful pagination recovery: when
the failed listing page is below the page budget, enqueue the next page
unless it is already seen or failed. -/
def scheduleNextPageFallback (cfg : Config) (st : CrawlState) (base : String)
    (page : Nat) : CrawlState :=
  if cfg.maxPages ≤ page then st
  else if Url.listing base (page + 1) ∈ st.seenUrls ∨
      Url.listing base (page + 1) ∈ st.failedUrls then st
  else
    { st with
        seenUrls := Url.listing base (page + 1) :: st.seenUrls
        queue := st.queue ++ [Target.listingT base (page + 1) 0] }

/-- detailFallbackSave mirrors the head of failedRequestHandler: a failed
detail fetch with an attached seed, details being collected, and a URL not
already failed triggers the seed fallback save with its failed mark. -/
def detailFallbackSave (cfg : Config) (st : CrawlState) (fi : FailureInfo) :
    CrawlState :=
  match fi.url, fi.seed with
  | Url.job _, some seed =>
    if cfg.collectDetails && !(fi.url ∈ st.failedUrls : Bool) then
      saveAndMarkFailed cfg st (seedRecord seed (fi.loadedUrl.getD fi.url)) fi.url
    else st
  | _, _ => st

/-- failureRequeueOrMark mirrors the middle of failedRequestHandler: a failed
listing page is requeued up to two times while the target is unmet, and
otherwise marked failed with the next-page fallback scheduled; a failed
detail page is marked failed exactly when the error is unclassified. -/
def failureRequeueOrMark (cfg : Config) (st1 : CrawlState) (fi : FailureInfo) :
    CrawlState :=
  match fi.url with
  | Url.listing base page =>
    if fi.requeueAttempt < 2 ∧ st1.saved < cfg.resultsWanted then
      { st1 with
          queue := st1.queue ++ [Target.listingT base page (fi.requeueAttempt + 1)] }
    else
      scheduleNextPageFallback cfg
        { st1 with failedUrls := addUrl fi.url st1.failedUrls } base page
  | Url.job _ =>
    if !isNetworkMsg fi.message && !isTimeoutMsg fi.message &&
        !is403or429 fi.statusCode fi.message then
      { st1 with failedUrls := addUrl fi.url st1.failedUrls }
    else st1

/-- failureChainMark mirrors the state effect of the classification chain: only
its final, unclassified branch adds the URL to failedUrls. -/
def failureChainMark (st2 : CrawlState) (fi : FailureInfo) : CrawlState :=
  if is403or429 fi.statusCode fi.message then st2
  else if isSocketMsg fi.message then st2
  else if isTimeoutMsg fi.message then st2
  else if isHttp2Msg fi.message then st2
  else if isNetworkMsg fi.message then st2
  else { st2 with failedUrls := addUrl fi.url st2.failedUrls }

/-- failureAction mirrors the session and delay effects of the classification
chain: blocked retires the session and waits the block delay range, socket,
timeout and network errors mark the session bad with short delays, http2
errors retire it, and the unclassified branch does neither. -/
def failureAction (cfg : Config) (fi : FailureInfo) : FailAction :=
  if is403or429 fi.statusCode fi.message then
    { sessionRetired := true, sessionMarkedBad := false,
      delayMin := cfg.blockDelayMin, delayMax := cfg.blockDelayMax }
  else if isSocketMsg fi.message then
    { sessionRetired := false, sessionMarkedBad := true,
      delayMin := 1500, delayMax := 2500 }
  else if isTimeoutMsg fi.message then
    { sessionRetired := false, sessionMarkedBad := true,
      delayMin := 1200, delayMax := 2000 }
  else if isHttp2Msg fi.message then
    { sessionRetired := true, sessionMarkedBad := false,
      delayMin := 300, delayMax := 800 }
  else if isNetworkMsg fi.message then
    { sessionRetired := false, sessionMarkedBad := true,
      delayMin := 800, delayMax := 1600 }
  else
    { sessionRetired := false, sessionMarkedBad := false,
      delayMin := 0, delayMax := 0 }

/-- handleFailure mirrors failedRequestHandler: the seed fallback save for
detail pages, the bounded listing requeue with its next-page fallback, the
unclassified mark, and the classification chain driving the session action
and the delay range. -/
def handleFailure (cfg : Config) (st : CrawlState) (fi : FailureInfo) :
    CrawlState × FailAction :=
  (failureChainMark (failureRequeueOrMark cfg (detailFallbackSave cfg st fi) fi) fi,
   failureAction cfg fi)

/-! ## The orchestration step relation

One step dequeues a frontier target and runs the matching handler with an
environment-chosen page outcome, or runs the failure handler for it.  The
failure description is left unconstrained beyond its URL, so every real
interleaving is covered. -/

/-- One orchestrator step of the canonical revision. -/
inductive Step (cfg : Config) : CrawlState → CrawlState → Prop
  | listing (st : CrawlState) (base : String) (page att : Nat)
      (links : List JobLink) (pre post : List Target)
      (hq : st.queue = pre ++ Target.listingT base page att :: post) :
      Step cfg st (handleListing cfg { st with queue := pre ++ post } base page links)
  | detail (st : CrawlState) (url : Url) (seed : Seed) (c : DetailContent)
      (pre post : List Target)
      (hq : st.queue = pre ++ Target.detailT url seed :: post) :
      Step cfg st (handleDetail cfg { st with queue := pre ++ post } url seed c)
  | failure (st : CrawlState) (fi : FailureInfo) (t : Target)
      (pre post : List Target)
      (hq : st.queue = pre ++ t :: post) (hu : fi.url = targetUrl t) :
      Step cfg st (handleFailure cfg { st with queue := pre ++ post } fi).1

/-! ## The detail save of the src main revision

The revision under src main keeps no savedJobUrls set; its detail branch
validates title and url and pushes the record directly, incrementing the
counter, with no membership check against previously saved urls. -/

/-- The per-run state of the src main revision, restricted to the sink and the
counter its detail save touches. -/
structure MainState where
  saved : Nat
  dataset : List JobRecord
deriving DecidableEq, Repr

/-- mainDetailSave mirrors the tail of the detail branch in the src main
revision: the quota early return at branch entry, then an unconditional push
of any record with a title and a url. -/
def mainDetailSave (cfg : Config) (st : MainState) (r : JobRecord) : MainState :=
  if cfg.resultsWanted ≤ st.saved then st
  else if truthy r.title && r.job_url.isSome then
    { saved := st.saved + 1, dataset := st.dataset ++ [r] }
  else st

/-! ## Derived notions used by the statements -/

/-- queueListings projects the frontier to its listing entries, as base and
page pairs in queue order. -/
def queueListings (q : List Target) : List (String × Nat) :=
  q.filterMap
    (fun t =>
      match t with
      | Target.listingT b p _ => some (b, p)
      | Target.detailT _ _ => none)

/-- DedupInv ties the sink to the saved url set: every pushed record has a url
recorded in savedJobUrls, and the pushed urls are pairwise distinct. -/
def DedupInv (st : CrawlState) : Prop :=
  (∀ r ∈ st.dataset, ∃ u, r.job_url = some u ∧ u ∈ st.savedJobUrls) ∧
  (st.dataset.map JobRecord.job_url).Nodup

/-- StepSound connects a state to any state a handler can produce from it:
the saved counter is monotone and respects the target bound, the sink is
frozen once the target is reached, and the dedup tie is preserved. -/
def StepSound (cfg : Config) (st st' : CrawlState) : Prop :=
  st.saved ≤ st'.saved ∧
  (st.saved ≤ cfg.resultsWanted → st'.saved ≤ cfg.resultsWanted) ∧
  (cfg.resultsWanted ≤ st.saved → st'.dataset = st.dataset) ∧
  (DedupInv st → DedupInv st')

/-- The state a run starts from: fresh counters and sets and one listing
target on page one of the given search. -/
def initialState (b : String) : CrawlState :=
  { saved := 0, pagesVisited := 0, seenUrls := [], failedUrls := [],
    savedJobUrls := [], dataset := [], queue := [Target.listingT b 1 0] }

/-- A run of successful listing dispatches: each step removes one listing
target from the frontier and applies handleListing to it with an arbitrary
crop of links; the middle list records the dispatched page numbers in
order. -/
inductive ListingTrace (cfg : Config) : CrawlState → List Nat → CrawlState → Prop
  | nil (st : CrawlState) : ListingTrace cfg st [] st
  | cons (st : CrawlState) (base : String) (page att : Nat)
      (links : List JobLink) (pre post : List Target) (ps : List Nat)
      (st' : CrawlState)
      (hq : st.queue = pre ++ Target.listingT base page att :: post)
      (htail :
        ListingTrace cfg
          (handleListing cfg { st with queue := pre ++ post } base page links)
          ps st') :
      ListingTrace cfg st (page :: ps) st'

/-- The reachability invariant of a detail-collecting crawl over base b under a
page budget of three: nothing saved yet, at most three pages visited, the
frontier holds exactly the next page while the budget allows one, and the seen
set holds exactly the listing URLs of the pages enqueued so far. -/
def C5Inv (b : String) (st : CrawlState) : Prop :=
  st.saved = 0 ∧
  st.pagesVisited ≤ 3 ∧
  queueListings st.queue =
    (if st.pagesVisited < 3 then [(b, st.pagesVisited + 1)] else []) ∧
  (∀ q : Nat, Url.listing b q ∈ st.seenUrls ↔
    2 ≤ q ∧ q ≤ min (st.pagesVisited + 1) 3)

/-- A three page demonstration configuration. -/
def cfg3 : Config :=
  { resultsWanted := 5, maxPages := 3, collectDetails := true }

/-- The state after dispatching page one of a concrete three page crawl. -/
def demoState1 : CrawlState :=
  handleListing cfg3 { initialState "s" with queue := [] ++ [] } "s" 1 []

/-- The state after dispatching page two of the concrete crawl. -/
def demoState2 : CrawlState :=
  handleListing cfg3 { demoState1 with queue := [] ++ [] } "s" 2 []

/-- The state after dispatching page three of the concrete crawl. -/
def demoState3 : CrawlState :=
  handleListing cfg3 { demoState2 with queue := [] ++ [] } "s" 3 []

end TotalJobs

namespace TotalJobs

lemma stepSound_refl (cfg : Config) (st : CrawlState) : StepSound cfg st st :=
  ⟨le_refl _, fun h => h, fun _ => rfl, fun h => h⟩

lemma stepSound_trans {cfg : Config} {s1 s2 s3 : CrawlState}
    (h12 : StepSound cfg s1 s2) (h23 : StepSound cfg s2 s3) : StepSound cfg s1 s3 := by
  obtain ⟨m12, b12, f12, d12⟩ := h12
  obtain ⟨m23, b23, f23, d23⟩ := h23
  refine ⟨le_trans m12 m23, fun h => b23 (b12 h), fun h => ?_, fun h => d23 (d12 h)⟩
  rw [f23 (le_trans h m12), f12 h]

lemma dedupInv_eqFields {st st' : CrawlState} (hd : st'.dataset = st.dataset)
    (hs : st'.savedJobUrls = st.savedJobUrls) : DedupInv st → DedupInv st' := by
  intro h
  obtain ⟨h1, h2⟩ := h
  rw [DedupInv, hd, hs]
  exact ⟨h1, h2⟩

lemma stepSound_of_untouched {cfg : Config} {st st' : CrawlState}
    (hsv : st'.saved = st.saved) (hd : st'.dataset = st.dataset)
    (hs : st'.savedJobUrls = st.savedJobUrls) : StepSound cfg st st' :=
  ⟨by rw [hsv], by rw [hsv]; exact id, fun _ => hd, dedupInv_eqFields hd hs⟩

lemma saveJobRecord_quota (cfg : Config) (st : CrawlState) (r : JobRecord)
    (h : cfg.resultsWanted ≤ st.saved) : saveJobRecord cfg st r = (st, false) := by
  rcases hju : r.job_url with _ | u <;> simp [saveJobRecord, hju, h]

lemma saveJobRecord_aux_fields (cfg : Config) (st : CrawlState) (r : JobRecord) :
    (saveJobRecord cfg st r).1.queue = st.queue ∧
    (saveJobRecord cfg st r).1.pagesVisited = st.pagesVisited ∧
    (saveJobRecord cfg st r).1.seenUrls = st.seenUrls ∧
    (saveJobRecord cfg st r).1.failedUrls = st.failedUrls := by
  rcases hju : r.job_url with _ | u
  · simp [saveJobRecord, hju]
  · simp only [saveJobRecord, hju]
    split_ifs <;> simp

lemma saveJobRecord_stepSound (cfg : Config) (st : CrawlState) (r : JobRecord) :
    StepSound cfg st (saveJobRecord cfg st r).1 := by
  rcases hju : r.job_url with _ | u
  · simp only [saveJobRecord, hju]
    exact stepSound_refl cfg st
  · simp only [saveJobRecord, hju]
    split_ifs with h1 h2 h3
  
    · exact stepSound_refl cfg st
    · exact stepSound_refl cfg st
    · exact stepSound_refl cfg st
    · refine ⟨Nat.le_succ _, fun _ => ?_, fun hq => absurd hq h2, ?_⟩
      · show st.saved + 1 ≤ cfg.resultsWanted
        omega
      · rintro ⟨hc, hn⟩
        constructor
        · intro x hx
          rcases List.mem_append.1 hx with hx | hx
          · obtain ⟨u', hu', hm⟩ := hc x hx
            exact ⟨u', hu', List.mem_cons_of_mem _ hm⟩
          · rw [List.mem_singleton.1 hx, hju]
            exact ⟨u, rfl, List.mem_cons_self _ _⟩
        · have hnotin : some u ∉ st.dataset.map JobRecord.job_url := by
            intro hmem
            obtain ⟨x, hx, hxu⟩ := List.mem_map.1 hmem
            obtain ⟨u', hu', hm⟩ := hc x hx
            rw [hu'] at hxu
            rw [Option.some_inj.1 hxu] at hm
            exact h3 hm
          simp [List.map_append, List.nodup_append, hn, hju, hnotin]

lemma collectJobLinks_fields (links : List JobLink) (st : CrawlState) :
    (collectJobLinks st links).1.saved = st.saved ∧
    (collectJobLinks st links).1.pagesVisited = st.pagesVisited ∧
    (collectJobLinks st links).1.failedUrls = st.failedUrls ∧
    (collectJobLinks st links).1.savedJobUrls = st.savedJobUrls ∧
    (collectJobLinks st links).1.dataset = st.dataset ∧
    (collectJobLinks st links).1.queue = st.queue := by
  induction links generalizing st with
  | nil => simp [collectJobLinks]
  | cons l rest ih =>
    simp only [collectJobLinks]
    split_ifs with h
    · exact ih st
    · simpa using ih { st with seenUrls := Url.job l.href :: st.seenUrls }

lemma collectJobLinks_seen_iff (links : List JobLink) (st : CrawlState)
    (b : String) (p : Nat) :
    Url.listing b p ∈ (collectJobLinks st links).1.seenUrls ↔
      Url.listing b p ∈ st.seenUrls := by
  induction links generalizing st with
  | nil => simp [collectJobLinks]
  | cons l rest ih =>
    simp only [collectJobLinks]
    split_ifs with h
    · exact ih st
    · rw [ih]
      simp

lemma collectJobLinks_seen_mono (links : List JobLink) (st : CrawlState) :
    ∀ u ∈ st.seenUrls, u ∈ (collectJobLinks st links).1.seenUrls := by
  induction links generalizing st with
  | nil => simp [collectJobLinks]
  | cons l rest ih =>
    simp only [collectJobLinks]
    split_ifs with h
    · exact ih st
    · intro u hu
      exact ih { st with seenUrls := Url.job l.href :: st.seenUrls } u
        (List.mem_cons_of_mem _ hu)

lemma collectJobLinks_kept (links : List JobLink) (st : CrawlState) :
    ∀ l ∈ (collectJobLinks st links).2,
      l ∈ links ∧ Url.job l.href ∉ st.failedUrls := by
  induction links generalizing st with
  | nil => simp [collectJobLinks]
  | cons l rest ih =>
    simp only [collectJobLinks]
    split_ifs with h
    · intro x hx
      obtain ⟨h1, h2⟩ := ih st x hx
      exact ⟨List.mem_cons_of_mem _ h1, h2⟩
    · intro x hx
      rcases List.mem_cons.1 hx with rfl | hx
      · exact ⟨List.mem_cons_self _ _, fun hf => h (Or.inr hf)⟩
      · obtain ⟨h1, h2⟩ := ih { st with seenUrls := Url.job l.href :: st.seenUrls } x hx
        exact ⟨List.mem_cons_of_mem _ h1, h2⟩

lemma saveFromListing_aux_fields (cfg : Config) (ls : List JobLink) (st : CrawlState) :
    (saveFromListing cfg st ls).queue = st.queue ∧
    (saveFromListing cfg st ls).pagesVisited = st.pagesVisited ∧
    (saveFromListing cfg st ls).seenUrls = st.seenUrls ∧
    (saveFromListing cfg st ls).failedUrls = st.failedUrls := by
  induction ls generalizing st with
  | nil => simp [saveFromListing]
  | cons l rest ih =>
    simp only [saveFromListing]
    split_ifs with h
    · simp
    · obtain ⟨a1, a2, a3, a4⟩ :=
        saveJobRecord_aux_fields cfg st (seedRecord l.seed (Url.job l.href))
      obtain ⟨b1, b2, b3, b4⟩ :=
        ih (saveJobRecord cfg st (seedRecord l.seed (Url.job l.href))).1
      exact ⟨b1.trans a1, b2.trans a2, b3.trans a3, b4.trans a4⟩

lemma saveFromListing_stepSound (cfg : Config) (ls : List JobLink) (st : CrawlState) :
    StepSound cfg st (saveFromListing cfg st ls) := by
  induction ls generalizing st with
  | nil => exact stepSound_refl cfg st
  | cons l rest ih =>
    simp only [saveFromListing]
    split_ifs with h
    · exact stepSound_refl cfg st
    · exact stepSound_trans
        (saveJobRecord_stepSound cfg st (seedRecord l.seed (Url.job l.href)))
        (ih _)

lemma tryEnqueueNextPage_aux_fields (st : CrawlState) (b : String) (p : Nat) :
    (tryEnqueueNextPage st b p).saved = st.saved ∧
    (tryEnqueueNextPage st b p).pagesVisited = st.pagesVisited ∧
    (tryEnqueueNextPage st b p).failedUrls = st.failedUrls ∧
    (tryEnqueueNextPage st b p).savedJobUrls = st.savedJobUrls ∧
    (tryEnqueueNextPage st b p).dataset = st.dataset := by
  unfold tryEnqueueNextPage
  split_ifs <;> simp

lemma enqueueDetails_aux_fields (cfg : Config) (st : CrawlState) (kept : List JobLink) :
    (enqueueDetails cfg st kept).saved = st.saved ∧
    (enqueueDetails cfg st kept).pagesVisited = st.pagesVisited ∧
    (enqueueDetails cfg st kept).seenUrls = st.seenUrls ∧
    (enqueueDetails cfg st kept).failedUrls = st.failedUrls ∧
    (enqueueDetails cfg st kept).savedJobUrls = st.savedJobUrls ∧
    (enqueueDetails cfg st kept).dataset = st.dataset := by
  simp [enqueueDetails]

lemma processLinks_stepSound (cfg : Config) (st2 : CrawlState) (kept : List JobLink) :
    StepSound cfg st2 (processLinks cfg st2 kept) := by
  unfold processLinks
  split_ifs with h1 h2
  · obtain ⟨e1, e2, e3, e4, e5, e6⟩ := enqueueDetails_aux_fields cfg st2 kept
    exact stepSound_of_untouched e1 e6 e5
  · exact saveFromListing_stepSound cfg kept st2
  · exact stepSound_refl cfg st2

lemma processLinks_aux_fields (cfg : Config) (st2 : CrawlState) (kept : List JobLink) :
    (processLinks cfg st2 kept).pagesVisited = st2.pagesVisited ∧
    (processLinks cfg st2 kept).seenUrls = st2.seenUrls ∧
    (processLinks cfg st2 kept).failedUrls = st2.failedUrls := by
  unfold processLinks
  split_ifs with h1 h2
  · obtain ⟨e1, e2, e3, e4, e5, e6⟩ := enqueueDetails_aux_fields cfg st2 kept
    exact ⟨e2, e3, e4⟩
  · obtain ⟨a1, a2, a3, a4⟩ := saveFromListing_aux_fields cfg kept st2
    exact ⟨a2, a3, a4⟩
  · exact ⟨rfl, rfl, rfl⟩

lemma paginate_stepSound (cfg : Config) (st3 : CrawlState) (b : String) (p : Nat) :
    StepSound cfg st3 (paginate cfg st3 b p) := by
  unfold paginate
  split_ifs with h
  · obtain ⟨t1, t2, t3, t4, t5⟩ := tryEnqueueNextPage_aux_fields st3 b p
    exact stepSound_of_untouched t1 t5 t4
  · exact stepSound_refl cfg st3

lemma paginate_aux_fields (cfg : Config) (st3 : CrawlState) (b : String) (p : Nat) :
    (paginate cfg st3 b p).saved = st3.saved ∧
    (paginate cfg st3 b p).pagesVisited = st3.pagesVisited ∧
    (paginate cfg st3 b p).failedUrls = st3.failedUrls ∧
    (paginate cfg st3 b p).savedJobUrls = st3.savedJobUrls ∧
    (paginate cfg st3 b p).dataset = st3.dataset := by
  unfold paginate
  split_ifs with h
  · exact tryEnqueueNextPage_aux_fields st3 b p
  · exact ⟨rfl, rfl, rfl, rfl, rfl⟩

lemma handleListing_stepSound (cfg : Config) (st : CrawlState) (b : String)
    (p : Nat) (links : List JobLink) :
    StepSound cfg st (handleListing cfg st b p links) := by
  unfold handleListing
  split_ifs with hq hb
  · exact stepSound_refl cfg st
  · exact stepSound_of_untouched rfl rfl rfl
  · obtain ⟨c1, c2, c3, c4, c5, c6⟩ :=
      collectJobLinks_fields links { st with pagesVisited := st.pagesVisited + 1 }
    exact stepSound_trans (stepSound_of_untouched c1 c5 c4)
      (stepSound_trans (processLinks_stepSound cfg _ _) (paginate_stepSound cfg _ b p))

lemma saveAndMarkFailed_stepSound (cfg : Config) (st : CrawlState) (r : JobRecord)
    (url : Url) : StepSound cfg st (saveAndMarkFailed cfg st r url) := by
  unfold saveAndMarkFailed
  split_ifs with h
  · exact stepSound_trans (saveJobRecord_stepSound cfg st r)
      (stepSound_of_untouched rfl rfl rfl)
  · exact saveJobRecord_stepSound cfg st r

lemma handleDetail_stepSound (cfg : Config) (st : CrawlState) (url : Url)
    (seed : Seed) (c : DetailContent) :
    StepSound cfg st (handleDetail cfg st url seed c) := by
  unfold handleDetail
  split_ifs with hq hb ht
  · exact stepSound_refl cfg st
  · exact saveAndMarkFailed_stepSound cfg st _ url
  · exact stepSound_of_untouched rfl rfl rfl
  · exact saveJobRecord_stepSound cfg st _

lemma scheduleNextPageFallback_aux_fields (cfg : Config) (st : CrawlState)
    (b : String) (p : Nat) :
    (scheduleNextPageFallback cfg st b p).saved = st.saved ∧
    (scheduleNextPageFallback cfg st b p).pagesVisited = st.pagesVisited ∧
    (scheduleNextPageFallback cfg st b p).failedUrls = st.failedUrls ∧
    (scheduleNextPageFallback cfg st b p).savedJobUrls = st.savedJobUrls ∧
    (scheduleNextPageFallback cfg st b p).dataset = st.dataset := by
  unfold scheduleNextPageFallback
  split_ifs <;> simp

lemma detailFallbackSave_stepSound (cfg : Config) (st : CrawlState)
    (fi : FailureInfo) : StepSound cfg st (detailFallbackSave cfg st fi) := by
  rcases hurl : fi.url with h | ⟨b, p⟩ <;> rcases hseed : fi.seed with _ | seed <;>
    simp only [detailFallbackSave, hurl, hseed]
  · exact stepSound_refl cfg st
  · split_ifs with hc
    · exact saveAndMarkFailed_stepSound cfg st _ _
    · exact stepSound_refl cfg st
  · exact stepSound_refl cfg st
  · exact stepSound_refl cfg st

lemma failureRequeueOrMark_stepSound (cfg : Config) (st1 : CrawlState)
    (fi : FailureInfo) : StepSound cfg st1 (failureRequeueOrMark cfg st1 fi) := by
  rcases hurl : fi.url with h | ⟨b, p⟩ <;> simp only [failureRequeueOrMark, hurl]
  · split_ifs with hc
    · exact stepSound_of_untouched rfl rfl rfl
    · exact stepSound_refl cfg st1
  · split_ifs with hc
    · exact stepSound_of_untouched rfl rfl rfl
    · obtain ⟨s1, s2, s3, s4, s5⟩ :=
        scheduleNextPageFallback_aux_fields cfg
          { st1 with failedUrls := addUrl (Url.listing b p) st1.failedUrls } b p
      exact stepSound_of_untouched s1 s5 s4

lemma failureChainMark_stepSound (cfg : Config) (st2 : CrawlState)
    (fi : FailureInfo) : StepSound cfg st2 (failureChainMark st2 fi) := by
  unfold failureChainMark
  split_ifs <;> exact stepSound_of_untouched rfl rfl rfl

lemma handleFailure_stepSound (cfg : Config) (st : CrawlState) (fi : FailureInfo) :
    StepSound cfg st (handleFailure cfg st fi).1 :=
  stepSound_trans (detailFallbackSave_stepSound cfg st fi)
    (stepSound_trans (failureRequeueOrMark_stepSound cfg _ fi)
      (failureChainMark_stepSound cfg _ fi))

lemma step_stepSound {cfg : Config} {st st' : CrawlState} (h : Step cfg st st') :
    StepSound cfg st st' := by
  cases h with
  | listing base page att links pre post hq =>
    exact handleListing_stepSound cfg { st with queue := pre ++ post } base page links
  | detail url seed c pre post hq =>
    exact handleDetail_stepSound cfg { st with queue := pre ++ post } url seed c
  | failure fi t pre post hq hu =>
    exact handleFailure_stepSound cfg { st with queue := pre ++ post } fi

end TotalJobs

namespace TotalJobs

theorem saved_monotone_and_quota (cfg : Config) :
    (∀ st st' : CrawlState, Step cfg st st' →
      st.saved ≤ st'.saved ∧
      (st.saved ≤ cfg.resultsWanted → st'.saved ≤ cfg.resultsWanted) ∧
      (cfg.resultsWanted ≤ st.saved → st'.dataset = st.dataset)) ∧
    (∀ st st' : CrawlState, Relation.ReflTransGen (Step cfg) st st' →
      st.saved = 0 → st'.saved ≤ cfg.resultsWanted) := by
  refine ⟨fun st st' h => ?_, fun st st' h h0 => ?_⟩
  · obtain ⟨m, bnd, fr, d⟩ := step_stepSound h
    exact ⟨m, bnd, fr⟩
  · induction h with
    | refl =>
      rw [h0]
      exact Nat.zero_le _
    | tail hsteps hstep1 ih =>
      obtain ⟨m, bnd, fr, d⟩ := step_stepSound hstep1
      exact bnd ih

theorem saved_monotone_and_quota_witness :
    ({ saved := 0, pagesVisited := 0, seenUrls := [], failedUrls := [],
       savedJobUrls := [], dataset := [],
       queue := [Target.listingT "b" 1 0] } : CrawlState).saved ≤
      (handleListing { resultsWanted := 2, maxPages := 3, collectDetails := true }
        { saved := 0, pagesVisited := 0, seenUrls := [], failedUrls := [],
          savedJobUrls := [], dataset := [], queue := [] } "b" 1 []).saved :=
  (((saved_monotone_and_quota
        { resultsWanted := 2, maxPages := 3, collectDetails := true }).1
      _ _ (Step.listing _ "b" 1 0 [] [] [] rfl)).1)

theorem dedup_invariant_canonical (cfg : Config) :
    (∀ st st' : CrawlState, Step cfg st st' → DedupInv st → DedupInv st') ∧
    (∀ st st' : CrawlState, Relation.ReflTransGen (Step cfg) st st' →
      DedupInv st → (st'.dataset.map JobRecord.job_url).Nodup) := by
  refine ⟨fun st st' h => (step_stepSound h).2.2.2, fun st st' h hinv => ?_⟩
  have : DedupInv st' := by
    induction h with
    | refl => exact hinv
    | tail hsteps hstep1 ih => exact (step_stepSound hstep1).2.2.2 ih
  exact this.2

theorem dedup_invariant_canonical_witness :
    (((handleListing { resultsWanted := 2, maxPages := 3, collectDetails := true }
        { saved := 0, pagesVisited := 0, seenUrls := [], failedUrls := [],
          savedJobUrls := [], dataset := [], queue := [] } "b" 1
        []).dataset.map JobRecord.job_url)).Nodup :=
  (dedup_invariant_canonical
      { resultsWanted := 2, maxPages := 3, collectDetails := true }).2
    { saved := 0, pagesVisited := 0, seenUrls := [], failedUrls := [],
      savedJobUrls := [], dataset := [], queue := [Target.listingT "b" 1 0] }
    _
    (Relation.ReflTransGen.single (Step.listing _ "b" 1 0 [] [] [] rfl))
    (by constructor
        · intro r hr
          simp at hr
        · simp)

theorem dedup_claim_counterexample :
    ((mainDetailSave { resultsWanted := 5, maxPages := 3, collectDetails := true }
        (mainDetailSave { resultsWanted := 5, maxPages := 3, collectDetails := true }
          { saved := 0, dataset := [] }
          (seedRecord { title := some "X" } (Url.job "x")))
        (seedRecord { title := some "X" } (Url.job "x"))).dataset.map
        JobRecord.job_url) =
      [some (Url.job "x"), some (Url.job "x")] ∧
    ¬ ((mainDetailSave { resultsWanted := 5, maxPages := 3, collectDetails := true }
        (mainDetailSave { resultsWanted := 5, maxPages := 3, collectDetails := true }
          { saved := 0, dataset := [] }
          (seedRecord { title := some "X" } (Url.job "x")))
        (seedRecord { title := some "X" } (Url.job "x"))).dataset.map
        JobRecord.job_url).Nodup := by
  refine ⟨by decide, by decide⟩

theorem saveJobRecord_atomic (cfg : Config) (st : CrawlState) (r : JobRecord) :
    ((saveJobRecord cfg st r).2 = false → (saveJobRecord cfg st r).1 = st) ∧
    ((saveJobRecord cfg st r).2 = false ↔
      r.job_url = none ∨ truthy r.title = false ∨ cfg.resultsWanted ≤ st.saved ∨
        ∃ u, r.job_url = some u ∧ u ∈ st.savedJobUrls) ∧
    ((saveJobRecord cfg st r).2 = true →
      (saveJobRecord cfg st r).1.saved = st.saved + 1 ∧
      (saveJobRecord cfg st r).1.dataset = st.dataset ++ [r] ∧
      ∃ u, r.job_url = some u ∧
        (saveJobRecord cfg st r).1.savedJobUrls = u :: st.savedJobUrls) := by
  rcases hju : r.job_url with _ | u
  · simp [saveJobRecord, hju]
  · simp only [saveJobRecord, hju]
    split_ifs with h1 h2 h3 <;> simp_all

theorem saveJobRecord_atomic_witness :
    (saveJobRecord { resultsWanted := 1, maxPages := 1, collectDetails := true }
        { saved := 1, pagesVisited := 0, seenUrls := [], failedUrls := [],
          savedJobUrls := [], dataset := [], queue := [] }
        (seedRecord { title := some "T" } (Url.job "x"))).1 =
      { saved := 1, pagesVisited := 0, seenUrls := [], failedUrls := [],
        savedJobUrls := [], dataset := [], queue := [] } :=
  (saveJobRecord_atomic _ _ _).1 (by decide)

end TotalJobs

namespace TotalJobs

lemma addUrl_mem (u : Url) (l : List Url) : u ∈ addUrl u l := by
  unfold addUrl
  split_ifs with h
  · exact h
  · exact List.mem_cons_self _ _

lemma saveAndMarkFailed_aux_fields (cfg : Config) (st : CrawlState)
    (r : JobRecord) (url : Url) :
    (saveAndMarkFailed cfg st r url).pagesVisited = st.pagesVisited ∧
    (saveAndMarkFailed cfg st r url).queue = st.queue ∧
    (saveAndMarkFailed cfg st r url).seenUrls = st.seenUrls := by
  obtain ⟨a1, a2, a3, a4⟩ := saveJobRecord_aux_fields cfg st r
  unfold saveAndMarkFailed
  split_ifs with h
  · exact ⟨a2, a1, a3⟩
  · exact ⟨a2, a1, a3⟩

lemma detailFallbackSave_aux_fields (cfg : Config) (st : CrawlState)
    (fi : FailureInfo) :
    (detailFallbackSave cfg st fi).pagesVisited = st.pagesVisited ∧
    (detailFallbackSave cfg st fi).queue = st.queue ∧
    (detailFallbackSave cfg st fi).seenUrls = st.seenUrls := by
  rcases hurl : fi.url with h | ⟨b, p⟩ <;> rcases hseed : fi.seed with _ | seed <;>
    simp only [detailFallbackSave, hurl, hseed]
  · simp
  · split_ifs with hc
    · exact saveAndMarkFailed_aux_fields cfg st _ _
    · simp
  · simp
  · simp

lemma failureChainMark_aux_fields (st2 : CrawlState) (fi : FailureInfo) :
    (failureChainMark st2 fi).pagesVisited = st2.pagesVisited ∧
    (failureChainMark st2 fi).queue = st2.queue ∧
    (failureChainMark st2 fi).seenUrls = st2.seenUrls := by
  unfold failureChainMark
  split_ifs <;> exact ⟨rfl, rfl, rfl⟩

lemma failureRequeueOrMark_pagesVisited (cfg : Config) (st1 : CrawlState)
    (fi : FailureInfo) :
    (failureRequeueOrMark cfg st1 fi).pagesVisited = st1.pagesVisited := by
  rcases hurl : fi.url with h | ⟨b, p⟩ <;> simp only [failureRequeueOrMark, hurl]
  · split_ifs <;> rfl
  · split_ifs with hc
    · rfl
    · exact (scheduleNextPageFallback_aux_fields cfg _ b p).2.1

theorem pages_counter_per_dispatch (cfg : Config) (st : CrawlState) (b : String)
    (p : Nat) (links : List JobLink) :
    (st.saved < cfg.resultsWanted →
      (handleListing cfg st b p links).pagesVisited = st.pagesVisited + 1) ∧
    (cfg.resultsWanted ≤ st.saved →
      (handleListing cfg st b p links).pagesVisited = st.pagesVisited) ∧
    (∀ (url : Url) (seed : Seed) (c : DetailContent),
      (handleDetail cfg st url seed c).pagesVisited = st.pagesVisited) ∧
    (∀ fi : FailureInfo, (handleFailure cfg st fi).1.pagesVisited = st.pagesVisited) := by
  refine ⟨fun h => ?_, fun h => ?_, fun url seed c => ?_, fun fi => ?_⟩
  · unfold handleListing
    rw [if_neg (not_le.2 h)]
    split_ifs with hb
    · rfl
    · obtain ⟨c1, c2, c3, c4, c5, c6⟩ :=
        collectJobLinks_fields links { st with pagesVisited := st.pagesVisited + 1 }
      obtain ⟨p1, p2, p3⟩ := processLinks_aux_fields cfg
        (collectJobLinks { st with pagesVisited := st.pagesVisited + 1 } links).1
        (collectJobLinks { st with pagesVisited := st.pagesVisited + 1 } links).2
      obtain ⟨g1, g2, g3, g4, g5⟩ := paginate_aux_fields cfg
        (processLinks cfg
          (collectJobLinks { st with pagesVisited := st.pagesVisited + 1 } links).1
          (collectJobLinks { st with pagesVisited := st.pagesVisited + 1 } links).2)
        b p
      rw [g2, p1, c2]
  · unfold handleListing
    rw [if_pos h]
  · unfold handleDetail
    split_ifs with h1 h2 h3
    · rfl
    · exact (saveAndMarkFailed_aux_fields cfg st _ url).1
    · rfl
    · exact (saveJobRecord_aux_fields cfg st _).2.1
  · show (failureChainMark (failureRequeueOrMark cfg (detailFallbackSave cfg st fi) fi) fi).pagesVisited = st.pagesVisited
    rw [(failureChainMark_aux_fields _ fi).1, failureRequeueOrMark_pagesVisited,
      (detailFallbackSave_aux_fields cfg st fi).1]

theorem pages_counter_per_dispatch_witness :
    (handleListing { resultsWanted := 1, maxPages := 3, collectDetails := true }
        { saved := 0, pagesVisited := 0, seenUrls := [], failedUrls := [],
          savedJobUrls := [], dataset := [], queue := [] } "b" 1 []).pagesVisited =
      0 + 1 :=
  (pages_counter_per_dispatch _ _ "b" 1 []).1 (by decide)

theorem pages_counter_claim_counterexample :
    (handleListing { resultsWanted := 1, maxPages := 3, collectDetails := true }
        { saved := 1, pagesVisited := 0, seenUrls := [], failedUrls := [],
          savedJobUrls := [], dataset := [], queue := [] } "b" 1 []).pagesVisited = 0 ∧
    ¬ (handleListing { resultsWanted := 1, maxPages := 3, collectDetails := true }
        { saved := 1, pagesVisited := 0, seenUrls := [], failedUrls := [],
          savedJobUrls := [], dataset := [], queue := [] } "b" 1 []).pagesVisited = 1 := by
  exact ⟨by decide, by decide⟩

end TotalJobs

namespace TotalJobs

lemma network_false_parts {m : String} (hn : isNetworkMsg m = false) :
    isHttp2Msg m = false ∧ isSocketMsg m = false := by
  unfold isNetworkMsg at hn
  simp only [Bool.or_eq_false_iff] at hn
  exact ⟨hn.1.1.1, hn.1.1.2⟩

lemma failureRequeueOrMark_queue_job (cfg : Config) (st1 : CrawlState)
    (fi : FailureInfo) (h : String) (hurl : fi.url = Url.job h) :
    (failureRequeueOrMark cfg st1 fi).queue = st1.queue := by
  simp only [failureRequeueOrMark, hurl]
  split_ifs <;> rfl

theorem failure_classifier_actions (cfg : Config) (st : CrawlState)
    (fi : FailureInfo) :
    (is403or429 fi.statusCode fi.message = true →
      (handleFailure cfg st fi).2.sessionRetired = true ∧
      (handleFailure cfg st fi).2.delayMin = cfg.blockDelayMin ∧
      (handleFailure cfg st fi).2.delayMax = cfg.blockDelayMax) ∧
    (∀ h : String, fi.url = Url.job h → fi.seed = none →
      is403or429 fi.statusCode fi.message = true →
      (handleFailure cfg st fi).1.failedUrls = st.failedUrls) ∧
    (is403or429 fi.statusCode fi.message = false →
      isTimeoutMsg fi.message = false →
      isNetworkMsg fi.message = false →
      fi.url ∈ (handleFailure cfg st fi).1.failedUrls ∧
      (handleFailure cfg st fi).2.sessionRetired = false ∧
      (handleFailure cfg st fi).2.sessionMarkedBad = false ∧
      (handleFailure cfg st fi).2.delayMin = 0 ∧
      (handleFailure cfg st fi).2.delayMax = 0) ∧
    (∀ h : String, fi.url = Url.job h →
      (handleFailure cfg st fi).1.queue = st.queue) := by
  refine ⟨fun hb => ?_, fun h hurl hseed hb => ?_, fun hb ht hn => ?_,
    fun h hurl => ?_⟩
  · show (failureAction cfg fi).sessionRetired = true ∧
      (failureAction cfg fi).delayMin = cfg.blockDelayMin ∧
      (failureAction cfg fi).delayMax = cfg.blockDelayMax
    unfold failureAction
    rw [if_pos hb]
    exact ⟨rfl, rfl, rfl⟩
  · show (failureChainMark
        (failureRequeueOrMark cfg (detailFallbackSave cfg st fi) fi) fi).failedUrls =
      st.failedUrls
    have h1 : detailFallbackSave cfg st fi = st := by
      simp [detailFallbackSave, hurl, hseed]
    have h2 : failureRequeueOrMark cfg st fi = st := by
      simp only [failureRequeueOrMark, hurl, hb]
      simp
    have h3 : failureChainMark st fi = st := by
      unfold failureChainMark
      rw [if_pos hb]
    rw [h1, h2, h3]
  · obtain ⟨hh2, hso⟩ := network_false_parts hn
    constructor
    · show fi.url ∈ (failureChainMark
          (failureRequeueOrMark cfg (detailFallbackSave cfg st fi) fi) fi).failedUrls
      unfold failureChainMark
      rw [if_neg (by simp [hb]), if_neg (by simp [hso]), if_neg (by simp [ht]),
        if_neg (by simp [hh2]), if_neg (by simp [hn])]
      exact addUrl_mem _ _
    · show (failureAction cfg fi).sessionRetired = false ∧
        (failureAction cfg fi).sessionMarkedBad = false ∧
        (failureAction cfg fi).delayMin = 0 ∧ (failureAction cfg fi).delayMax = 0
      unfold failureAction
      rw [if_neg (by simp [hb]), if_neg (by simp [hso]), if_neg (by simp [ht]),
        if_neg (by simp [hh2]), if_neg (by simp [hn])]
      exact ⟨rfl, rfl, rfl, rfl⟩
  · show (failureChainMark
        (failureRequeueOrMark cfg (detailFallbackSave cfg st fi) fi) fi).queue =
      st.queue
    rw [(failureChainMark_aux_fields _ fi).2.1,
      failureRequeueOrMark_queue_job cfg _ fi h hurl,
      (detailFallbackSave_aux_fields cfg st fi).2.1]

theorem failure_classifier_actions_witness :
    (handleFailure { resultsWanted := 5, maxPages := 3, collectDetails := true }
        { saved := 0, pagesVisited := 0, seenUrls := [], failedUrls := [],
          savedJobUrls := [], dataset := [], queue := [] }
        { url := Url.job "j", statusCode := 403, message := "", seed := none,
          loadedUrl := none, requeueAttempt := 0 }).2.sessionRetired = true ∧
    (handleFailure { resultsWanted := 5, maxPages := 3, collectDetails := true }
        { saved := 0, pagesVisited := 0, seenUrls := [], failedUrls := [],
          savedJobUrls := [], dataset := [], queue := [] }
        { url := Url.job "j", statusCode := 403, message := "", seed := none,
          loadedUrl := none, requeueAttempt := 0 }).2.delayMin = 5000 ∧
    (handleFailure { resultsWanted := 5, maxPages := 3, collectDetails := true }
        { saved := 0, pagesVisited := 0, seenUrls := [], failedUrls := [],
          savedJobUrls := [], dataset := [], queue := [] }
        { url := Url.job "j", statusCode := 403, message := "", seed := none,
          loadedUrl := none, requeueAttempt := 0 }).2.delayMax = 9000 :=
  (failure_classifier_actions _ _ _).1 (by decide)

theorem failure_blocked_counterexample :
    is403or429 403 "" = true ∧
    Url.job "j" ∈
      (handleFailure { resultsWanted := 5, maxPages := 3, collectDetails := true }
        { saved := 0, pagesVisited := 0, seenUrls := [], failedUrls := [],
          savedJobUrls := [], dataset := [], queue := [] }
        { url := Url.job "j", statusCode := 403, message := "",
          seed := some { title := some "X" }, loadedUrl := none,
          requeueAttempt := 0 }).1.failedUrls := by
  exact ⟨by decide, by decide⟩

end TotalJobs

namespace TotalJobs

theorem classifier_correct :
    classify "/job/senior-dev/acme-job12345" = PageClass.Detail ∧
    classify "/jobs/admin?page=3" = PageClass.Listing ∧
    classify "/about" = PageClass.Other ∧
    ∀ url : String, hasDetailPattern url.data = true →
      classify url = PageClass.Detail := by
  refine ⟨by decide, by decide, by decide, ?_⟩
  intro url h
  simp [classify, h]

theorem classifier_correct_witness :
    hasDetailPattern ("/jobs/x/job/a/b-job1").data = true ∧
    classify "/jobs/x/job/a/b-job1" = PageClass.Detail :=
  ⟨by decide, classifier_correct.2.2.2 _ (by decide)⟩

lemma findJobPosting_append_none (pre rest : List (Option (List LdItem)))
    (hpre : findJobPosting pre = none) :
    findJobPosting (pre ++ rest) = findJobPosting rest := by
  induction pre with
  | nil => rfl
  | cons b pre ih =>
    cases b with
    | none =>
      simp only [findJobPosting, List.cons_append] at hpre ⊢
      exact ih hpre
    | some items =>
      simp only [findJobPosting, List.cons_append] at hpre ⊢
      cases hfind : items.find? (fun it => isJobPostingType it.tag) with
      | none =>
        rw [hfind] at hpre
        exact ih hpre
      | some it =>
        rw [hfind] at hpre
        simp at hpre

lemma findJobPosting_block (its1 : List LdItem) (it : LdItem) (its2 : List LdItem)
    (rest : List (Option (List LdItem)))
    (h1 : ∀ it2 ∈ its1, isJobPostingType it2.tag = false)
    (hit : isJobPostingType it.tag = true) :
    findJobPosting (some (its1 ++ it :: its2) :: rest) = some it := by
  have hfind : (its1 ++ it :: its2).find? (fun x => isJobPostingType x.tag) = some it := by
    rw [List.find?_append]
    have h1' : its1.find? (fun x => isJobPostingType x.tag) = none := by
      rw [List.find?_eq_none]
      intro x hx
      simp [h1 x hx]
    have h2 : (it :: its2).find? (fun x => isJobPostingType x.tag) = some it :=
      List.find?_cons_of_pos _ (by simpa using hit)
    rw [h1', h2]
    rfl
  simp [findJobPosting, hfind]

theorem fallback_precedence :
    (∀ (blocks : List (Option (List LdItem))) (seedTitle domTitle : Option String),
        truthy (ldField (extractJsonLd blocks) LdRecord.title) = true →
        resolveField (ldField (extractJsonLd blocks) LdRecord.title) seedTitle domTitle =
          ldField (extractJsonLd blocks) LdRecord.title) ∧
    (∀ (blocks : List (Option (List LdItem))) (seedTitle domTitle : Option String),
        truthy (ldField (extractJsonLd blocks) LdRecord.title) = false →
        truthy seedTitle = true →
        resolveField (ldField (extractJsonLd blocks) LdRecord.title) seedTitle domTitle =
          seedTitle) ∧
    (∀ (blocks : List (Option (List LdItem))) (seedTitle domTitle : Option String),
        truthy (ldField (extractJsonLd blocks) LdRecord.title) = false →
        truthy seedTitle = false →
        truthy domTitle = true →
        resolveField (ldField (extractJsonLd blocks) LdRecord.title) seedTitle domTitle =
          domTitle) ∧
    (∀ (pre : List (Option (List LdItem))) (its1 : List LdItem) (it : LdItem)
        (its2 : List LdItem) (rest : List (Option (List LdItem))),
        findJobPosting pre = none →
        (∀ it2 ∈ its1, isJobPostingType it2.tag = false) →
        isJobPostingType it.tag = true →
        extractJsonLd (pre ++ some (its1 ++ it :: its2) :: rest) = some (ldRecordOf it)) ∧
    resolveField
        (ldField (extractJsonLd [some [{ tag := LdType.str "JobPosting", title := some "A" }]])
          LdRecord.title)
        (some "B") (some "C") = some "A" ∧
    resolveField (ldField (extractJsonLd []) LdRecord.title) (some "B") (some "C") = some "B" ∧
    resolveField (ldField (extractJsonLd []) LdRecord.title) none (some "C") = some "C" := by
  refine ⟨?_, ?_, ?_, ?_, by decide, by decide, by decide⟩
  · intro blocks seedTitle domTitle h
    simp [resolveField, h]
  · intro blocks seedTitle domTitle h hs
    simp [resolveField, h, hs]
  · intro blocks seedTitle domTitle h hs hd
    simp [resolveField, h, hs, hd]
  · intro pre its1 it its2 rest hpre h1 hit
    unfold extractJsonLd
    rw [findJobPosting_append_none _ _ hpre, findJobPosting_block _ _ _ _ h1 hit]
    rfl

theorem fallback_precedence_witness :
    resolveField
        (ldField (extractJsonLd [some [{ tag := LdType.str "JobPosting", title := some "A" }]])
          LdRecord.title)
        (some "B") (some "C") =
      ldField (extractJsonLd [some [{ tag := LdType.str "JobPosting", title := some "A" }]])
        LdRecord.title :=
  fallback_precedence.1 _ _ _ (by decide)

end TotalJobs

namespace TotalJobs

lemma enqueueDetails_queue_mem (cfg : Config) (st : CrawlState)
    (kept : List JobLink) (t : Target)
    (ht : t ∈ (enqueueDetails cfg st kept).queue) :
    t ∈ st.queue ∨ ∃ l ∈ kept, t = Target.detailT (Url.job l.href) l.seed := by
  simp only [enqueueDetails] at ht
  rcases List.mem_append.1 ht with h | h
  · exact Or.inl h
  · obtain ⟨l, hl, hlt⟩ := List.mem_map.1 h
    exact Or.inr ⟨l, List.take_subset _ _ hl, hlt.symm⟩

lemma processLinks_queue_mem (cfg : Config) (st2 : CrawlState)
    (kept : List JobLink) (t : Target)
    (ht : t ∈ (processLinks cfg st2 kept).queue) :
    t ∈ st2.queue ∨ ∃ l ∈ kept, t = Target.detailT (Url.job l.href) l.seed := by
  unfold processLinks at ht
  split_ifs at ht with h1 h2
  · exact enqueueDetails_queue_mem cfg st2 kept t ht
  · rw [(saveFromListing_aux_fields cfg kept st2).1] at ht
    exact Or.inl ht
  · exact Or.inl ht

lemma handleListing_queue_mem (cfg : Config) (st : CrawlState) (b : String)
    (p : Nat) (links : List JobLink) (t : Target)
    (ht : t ∈ (handleListing cfg st b p links).queue) :
    t ∈ st.queue ∨
      (∃ l, l ∈ links ∧ t = Target.detailT (Url.job l.href) l.seed ∧
        Url.job l.href ∉ st.failedUrls) ∨
      t = Target.listingT b (p + 1) 0 := by
  have hproc : ∀ t : Target,
      t ∈ (processLinks cfg
        (collectJobLinks { st with pagesVisited := st.pagesVisited + 1 } links).1
        (collectJobLinks { st with pagesVisited := st.pagesVisited + 1 } links).2).queue →
      t ∈ st.queue ∨
        (∃ l, l ∈ links ∧ t = Target.detailT (Url.job l.href) l.seed ∧
          Url.job l.href ∉ st.failedUrls) := by
    intro t2 ht2
    obtain ⟨c1, c2, c3, c4, c5, c6⟩ :=
      collectJobLinks_fields links { st with pagesVisited := st.pagesVisited + 1 }
    rcases processLinks_queue_mem cfg _ _ t2 ht2 with h | ⟨l, hl, hlt⟩
    · rw [c6] at h
      exact Or.inl h
    · obtain ⟨hmem, hnf⟩ :=
        collectJobLinks_kept links { st with pagesVisited := st.pagesVisited + 1 } l hl
      exact Or.inr ⟨l, hmem, hlt, hnf⟩
  unfold handleListing at ht
  split_ifs at ht with hq hb
  · exact Or.inl ht
  · exact Or.inl ht
  · unfold paginate at ht
    split_ifs at ht with hpg
    · unfold tryEnqueueNextPage at ht
      split_ifs at ht with hs
      · rcases hproc t ht with h | h
        · exact Or.inl h
        · exact Or.inr (Or.inl h)
      · rcases List.mem_append.1 ht with h | h
        · rcases hproc t h with h2 | h2
          · exact Or.inl h2
          · exact Or.inr (Or.inl h2)
        · exact Or.inr (Or.inr (List.mem_singleton.1 h))
    · rcases hproc t ht with h | h
      · exact Or.inl h
      · exact Or.inr (Or.inl h)

end TotalJobs

namespace TotalJobs

theorem blocked_page_recovery (cfg : Config) (st : CrawlState) (url : Url)
    (seed : Seed) (c : DetailContent)
    (hquota : st.saved < cfg.resultsWanted)
    (hlen : c.html.length = 120)
    (_hkw : containsCI "captcha" c.html = true)
    (hloaded : c.loadedUrl = none)
    (htitle : truthy seed.title = true)
    (hfresh : url ∉ st.savedJobUrls) :
    handleDetail cfg st url seed c =
      { st with
          saved := st.saved + 1
          failedUrls := addUrl url st.failedUrls
          savedJobUrls := url :: st.savedJobUrls
          dataset := st.dataset ++ [seedRecord seed url] } ∧
    (seedRecord seed url).title = seed.title ∧
    (seedRecord seed url).company = seed.company ∧
    (seedRecord seed url).job_type = none ∧
    (seedRecord seed url).job_category = none ∧
    (seedRecord seed url).description_html = none ∧
    (seedRecord seed url).description_text = none ∧
    url ∈ (handleDetail cfg st url seed c).failedUrls ∧
    (∀ (st2 : CrawlState) (b : String) (p : Nat) (links : List JobLink)
        (t : Target), url ∈ st2.failedUrls →
      t ∈ (handleListing cfg st2 b p links).queue →
      t ∈ st2.queue ∨ ∀ s2 : Seed, t ≠ Target.detailT url s2) := by
  have hblocked : isBlockedOrError c.html = true := by
    unfold isBlockedOrError
    rw [hlen]
    simp
  have hsave : saveJobRecord cfg st (seedRecord seed url) =
      ({ st with
          saved := st.saved + 1
          savedJobUrls := url :: st.savedJobUrls
          dataset := st.dataset ++ [seedRecord seed url] }, true) := by
    show (match (seedRecord seed url).job_url with
      | none => (st, false)
      | some u =>
        if !(truthy (seedRecord seed url).title) then (st, false)
        else if cfg.resultsWanted ≤ st.saved then (st, false)
        else if u ∈ st.savedJobUrls then (st, false)
        else
          ({ st with
              dataset := st.dataset ++ [seedRecord seed url]
              savedJobUrls := u :: st.savedJobUrls
              saved := st.saved + 1 }, true)) = _
    show (if !(truthy seed.title) then (st, false)
      else if cfg.resultsWanted ≤ st.saved then (st, false)
      else if url ∈ st.savedJobUrls then (st, false)
      else
        ({ st with
            dataset := st.dataset ++ [seedRecord seed url]
            savedJobUrls := url :: st.savedJobUrls
            saved := st.saved + 1 }, true)) = _
    rw [htitle]
    rw [if_neg (by simp), if_neg (not_le.2 hquota), if_neg hfresh]
  have hmain : handleDetail cfg st url seed c =
      { st with
          saved := st.saved + 1
          failedUrls := addUrl url st.failedUrls
          savedJobUrls := url :: st.savedJobUrls
          dataset := st.dataset ++ [seedRecord seed url] } := by
    unfold handleDetail
    rw [if_neg (not_le.2 hquota), if_pos (by rw [hblocked, htitle]; rfl), hloaded]
    show saveAndMarkFailed cfg st (seedRecord seed url) url = _
    unfold saveAndMarkFailed
    rw [hsave]
    rfl
  refine ⟨hmain, rfl, rfl, rfl, rfl, rfl, rfl, ?_, ?_⟩
  · rw [hmain]
    exact addUrl_mem _ _
  · intro st2 b p links t hfail ht
    rcases handleListing_queue_mem cfg st2 b p links t ht with h | ⟨l, hl, hlt, hnf⟩ | h
    · exact Or.inl h
    · refine Or.inr fun s2 heq => ?_
      rw [heq] at hlt
      have : Url.job l.href = url := by
        injection hlt.symm with h1 h2
      rw [this] at hnf
      exact hnf hfail
    · refine Or.inr fun s2 heq => ?_
      rw [heq] at h
      exact Target.noConfusion h

end TotalJobs

namespace TotalJobs

theorem blocked_page_recovery_witness :
    (handleDetail { resultsWanted := 5, maxPages := 3, collectDetails := true }
        { saved := 0, pagesVisited := 0, seenUrls := [], failedUrls := [],
          savedJobUrls := [], dataset := [], queue := [] }
        (Url.job "j") { title := some "X", company := some "Y" }
        { html := "captchaxxxxxxxxxxxxxxxxxxxxxxxxxxxxxxxxxxxxxxxxxxxxxxxxxxxxxxxxxxxxxxxxxxxxxxxxxxxxxxxxxxxxxxxxxxxxxxxxxxxxxxxxxxxxxxxxx",
          blocks := [], domTitle := none, domCompany := none, domLocation := none,
          domSalary := none, domDatePosted := none, domJobType := none,
          domDescriptionHtml := "", textOf := fun _ => "", domJobCategory := none,
          loadedUrl := none }).saved = 1 ∧
    Url.job "j" ∈
      (handleDetail { resultsWanted := 5, maxPages := 3, collectDetails := true }
        { saved := 0, pagesVisited := 0, seenUrls := [], failedUrls := [],
          savedJobUrls := [], dataset := [], queue := [] }
        (Url.job "j") { title := some "X", company := some "Y" }
        { html := "captchaxxxxxxxxxxxxxxxxxxxxxxxxxxxxxxxxxxxxxxxxxxxxxxxxxxxxxxxxxxxxxxxxxxxxxxxxxxxxxxxxxxxxxxxxxxxxxxxxxxxxxxxxxxxxxxxxx",
          blocks := [], domTitle := none, domCompany := none, domLocation := none,
          domSalary := none, domDatePosted := none, domJobType := none,
          domDescriptionHtml := "", textOf := fun _ => "", domJobCategory := none,
          loadedUrl := none }).failedUrls := by
  have h := blocked_page_recovery
    { resultsWanted := 5, maxPages := 3, collectDetails := true }
    { saved := 0, pagesVisited := 0, seenUrls := [], failedUrls := [],
      savedJobUrls := [], dataset := [], queue := [] }
    (Url.job "j") { title := some "X", company := some "Y" }
    { html := "captchaxxxxxxxxxxxxxxxxxxxxxxxxxxxxxxxxxxxxxxxxxxxxxxxxxxxxxxxxxxxxxxxxxxxxxxxxxxxxxxxxxxxxxxxxxxxxxxxxxxxxxxxxxxxxxxxxx",
      blocks := [], domTitle := none, domCompany := none, domLocation := none,
      domSalary := none, domDatePosted := none, domJobType := none,
      domDescriptionHtml := "", textOf := fun _ => "", domJobCategory := none,
      loadedUrl := none }
    (by decide) (by decide) (by decide) rfl (by decide) (by decide)
  exact ⟨by rw [h.1], h.2.2.2.2.2.2.2.1⟩

end TotalJobs

namespace TotalJobs

lemma queueListings_append (q1 q2 : List Target) :
    queueListings (q1 ++ q2) = queueListings q1 ++ queueListings q2 :=
  List.filterMap_append q1 q2 _

lemma queueListings_details (kept : List JobLink) :
    queueListings (kept.map (fun l => Target.detailT (Url.job l.href) l.seed)) = [] := by
  induction kept with
  | nil => rfl
  | cons l rest ih =>
    simp only [List.map_cons, queueListings, List.filterMap_cons]
    exact ih

lemma enqueueDetails_queueListings (cfg : Config) (st : CrawlState)
    (kept : List JobLink) :
    queueListings (enqueueDetails cfg st kept).queue = queueListings st.queue := by
  simp only [enqueueDetails]
  rw [queueListings_append, queueListings_details]
  simp

lemma processLinks_queueListings (cfg : Config) (st2 : CrawlState)
    (kept : List JobLink) :
    queueListings (processLinks cfg st2 kept).queue = queueListings st2.queue := by
  unfold processLinks
  split_ifs with h1 h2
  · exact enqueueDetails_queueListings cfg st2 kept
  · rw [(saveFromListing_aux_fields cfg kept st2).1]
  · rfl

lemma processLinks_seen (cfg : Config) (st2 : CrawlState) (kept : List JobLink) :
    (processLinks cfg st2 kept).seenUrls = st2.seenUrls := by
  unfold processLinks
  split_ifs with h1 h2
  · exact (enqueueDetails_aux_fields cfg st2 kept).2.2.1
  · exact (saveFromListing_aux_fields cfg kept st2).2.2.1
  · rfl

lemma processLinks_pv (cfg : Config) (st2 : CrawlState) (kept : List JobLink) :
    (processLinks cfg st2 kept).pagesVisited = st2.pagesVisited :=
  (processLinks_aux_fields cfg st2 kept).1

lemma tryEnqueueNextPage_mem_eq (st : CrawlState) (b : String) (p : Nat)
    (h : Url.listing b (p + 1) ∈ st.seenUrls) : tryEnqueueNextPage st b p = st := by
  unfold tryEnqueueNextPage
  rw [if_pos h]

lemma tryEnqueueNextPage_idem (st : CrawlState) (b : String) (p : Nat) :
    tryEnqueueNextPage (tryEnqueueNextPage st b p) b p = tryEnqueueNextPage st b p := by
  by_cases h : Url.listing b (p + 1) ∈ st.seenUrls
  · rw [tryEnqueueNextPage_mem_eq st b p h, tryEnqueueNextPage_mem_eq st b p h]
  · have h1 : tryEnqueueNextPage st b p =
        { st with
            seenUrls := Url.listing b (p + 1) :: st.seenUrls
            queue := st.queue ++ [Target.listingT b (p + 1) 0] } := by
      unfold tryEnqueueNextPage
      rw [if_neg h]
    rw [h1, tryEnqueueNextPage_mem_eq _ b p (List.mem_cons_self _ _)]

lemma handleListing_seen_noListing (cfg : Config) (st : CrawlState) (b : String)
    (p : Nat) (links : List JobLink) (h : Url.listing b (p + 1) ∈ st.seenUrls) :
    queueListings (handleListing cfg st b p links).queue = queueListings st.queue := by
  unfold handleListing
  split_ifs with hq hb
  · rfl
  · rfl
  · have hseen2 : Url.listing b (p + 1) ∈
        (collectJobLinks { st with pagesVisited := st.pagesVisited + 1 } links).1.seenUrls :=
      collectJobLinks_seen_mono links _ _ h
    have hseen3 : Url.listing b (p + 1) ∈
        (processLinks cfg
          (collectJobLinks { st with pagesVisited := st.pagesVisited + 1 } links).1
          (collectJobLinks { st with pagesVisited := st.pagesVisited + 1 } links).2).seenUrls := by
      rw [processLinks_seen]
      exact hseen2
    have hqq : queueListings
        (processLinks cfg
          (collectJobLinks { st with pagesVisited := st.pagesVisited + 1 } links).1
          (collectJobLinks { st with pagesVisited := st.pagesVisited + 1 } links).2).queue =
        queueListings st.queue := by
      rw [processLinks_queueListings,
        (collectJobLinks_fields links { st with pagesVisited := st.pagesVisited + 1 }).2.2.2.2.2]
    unfold paginate
    split_ifs with hpg
    · rw [tryEnqueueNextPage_mem_eq _ b p hseen3]
      exact hqq
    · exact hqq

lemma handleListing_pv_inc (cfg : Config) (st : CrawlState) (b : String) (p : Nat)
    (links : List JobLink) (hq : ¬ cfg.resultsWanted ≤ st.saved)
    (hb : ¬ cfg.maxPages < st.pagesVisited + 1) :
    (handleListing cfg st b p links).pagesVisited = st.pagesVisited + 1 := by
  unfold handleListing
  rw [if_neg hq, if_neg hb]
  rw [(paginate_aux_fields cfg _ b p).2.1, processLinks_pv,
    (collectJobLinks_fields links { st with pagesVisited := st.pagesVisited + 1 }).2.1]

lemma handleListing_seen_next (cfg : Config) (st : CrawlState) (b : String)
    (p : Nat) (links : List JobLink) (hq : ¬ cfg.resultsWanted ≤ st.saved)
    (hb : ¬ cfg.maxPages < st.pagesVisited + 1)
    (hpag : st.pagesVisited + 1 < cfg.maxPages) :
    Url.listing b (p + 1) ∈ (handleListing cfg st b p links).seenUrls := by
  unfold handleListing
  rw [if_neg hq, if_neg hb]
  have hpv3 : (processLinks cfg
      (collectJobLinks { st with pagesVisited := st.pagesVisited + 1 } links).1
      (collectJobLinks { st with pagesVisited := st.pagesVisited + 1 } links).2).pagesVisited =
      st.pagesVisited + 1 := by
    rw [processLinks_pv,
      (collectJobLinks_fields links { st with pagesVisited := st.pagesVisited + 1 }).2.1]
  unfold paginate
  rw [if_pos (by rw [hpv3]; exact hpag)]
  unfold tryEnqueueNextPage
  split_ifs with hs
  · exact hs
  · exact List.mem_cons_self _ _

lemma handleListing_quota (cfg : Config) (st : CrawlState) (b : String) (p : Nat)
    (links : List JobLink) (h : cfg.resultsWanted ≤ st.saved) :
    handleListing cfg st b p links = st := by
  unfold handleListing
  rw [if_pos h]

lemma handleListing_budget (cfg : Config) (st : CrawlState) (b : String) (p : Nat)
    (links : List JobLink) (hq : ¬ cfg.resultsWanted ≤ st.saved)
    (hb : cfg.maxPages < st.pagesVisited + 1) :
    handleListing cfg st b p links = { st with pagesVisited := st.pagesVisited + 1 } := by
  unfold handleListing
  rw [if_neg hq, if_pos hb]

lemma handleListing_second_noListing (cfg : Config) (st : CrawlState) (b : String)
    (p : Nat) (links links2 : List JobLink) :
    queueListings
        (handleListing cfg (handleListing cfg st b p links) b p links2).queue =
      queueListings (handleListing cfg st b p links).queue := by
  by_cases hq : cfg.resultsWanted ≤ st.saved
  · rw [handleListing_quota cfg st b p links hq, handleListing_quota cfg st b p links2 hq]
  · by_cases hb : cfg.maxPages < st.pagesVisited + 1
    · rw [handleListing_budget cfg st b p links hq hb]
      rw [handleListing_budget cfg { st with pagesVisited := st.pagesVisited + 1 }
        b p links2 hq (show cfg.maxPages < st.pagesVisited + 1 + 1 by omega)]
    · by_cases hq2 : cfg.resultsWanted ≤ (handleListing cfg st b p links).saved
      · rw [handleListing_quota cfg _ b p links2 hq2]
      · by_cases hb2 : cfg.maxPages < (handleListing cfg st b p links).pagesVisited + 1
        · rw [handleListing_budget cfg _ b p links2 hq2 hb2]
        · have hpv1 : (handleListing cfg st b p links).pagesVisited =
              st.pagesVisited + 1 := handleListing_pv_inc cfg st b p links hq hb
          have hpag : st.pagesVisited + 1 < cfg.maxPages := by
            rw [hpv1] at hb2
            omega
          exact handleListing_seen_noListing cfg _ b p links2
            (handleListing_seen_next cfg st b p links hq hb hpag)

theorem listing_enqueue_idempotent (cfg : Config) :
    (∀ (st : CrawlState) (b : String) (p : Nat),
      Url.listing b (p + 1) ∈ st.seenUrls → tryEnqueueNextPage st b p = st) ∧
    (∀ (st : CrawlState) (b : String) (p : Nat),
      tryEnqueueNextPage (tryEnqueueNextPage st b p) b p = tryEnqueueNextPage st b p) ∧
    (∀ (st : CrawlState) (b : String) (p : Nat) (links : List JobLink),
      Url.listing b (p + 1) ∈ st.seenUrls →
      queueListings (handleListing cfg st b p links).queue = queueListings st.queue) ∧
    (∀ (st : CrawlState) (b : String) (p : Nat) (links links2 : List JobLink),
      queueListings
          (handleListing cfg (handleListing cfg st b p links) b p links2).queue =
        queueListings (handleListing cfg st b p links).queue) :=
  ⟨tryEnqueueNextPage_mem_eq, tryEnqueueNextPage_idem,
   fun st b p links h => handleListing_seen_noListing cfg st b p links h,
   fun st b p links links2 => handleListing_second_noListing cfg st b p links links2⟩

theorem listing_enqueue_idempotent_witness :
    tryEnqueueNextPage
        { saved := 0, pagesVisited := 1, seenUrls := [Url.listing "b" 2],
          failedUrls := [], savedJobUrls := [], dataset := [], queue := [] } "b" 1 =
      { saved := 0, pagesVisited := 1, seenUrls := [Url.listing "b" 2],
        failedUrls := [], savedJobUrls := [], dataset := [], queue := [] } :=
  (listing_enqueue_idempotent
      { resultsWanted := 5, maxPages := 3, collectDetails := true }).1
    _ "b" 1 (by decide)

end TotalJobs

namespace TotalJobs

lemma processLinks_saved_cd (cfg : Config) (st2 : CrawlState) (kept : List JobLink)
    (hcd : cfg.collectDetails = true) :
    (processLinks cfg st2 kept).saved = st2.saved := by
  unfold processLinks
  split_ifs with h1 h2
  · exact (enqueueDetails_aux_fields cfg st2 kept).1
  · simp [hcd] at h2
  · rfl

lemma c5_step (cfg : Config) (b : String) (st : CrawlState) (page : Nat)
    (links : List JobLink)
    (hmp : cfg.maxPages = 3) (hcd : cfg.collectDetails = true)
    (hrw : 1 ≤ cfg.resultsWanted)
    (hsaved : st.saved = 0) (hpv : st.pagesVisited < 3)
    (hpage : page = st.pagesVisited + 1)
    (hqlist : queueListings st.queue = [])
    (hseen : ∀ q : Nat, Url.listing b q ∈ st.seenUrls ↔
      2 ≤ q ∧ q ≤ min (st.pagesVisited + 1) 3) :
    (handleListing cfg st b page links).saved = 0 ∧
    (handleListing cfg st b page links).pagesVisited = st.pagesVisited + 1 ∧
    queueListings (handleListing cfg st b page links).queue =
      (if st.pagesVisited + 1 < 3 then [(b, st.pagesVisited + 2)] else []) ∧
    (∀ q : Nat, Url.listing b q ∈ (handleListing cfg st b page links).seenUrls ↔
      2 ≤ q ∧ q ≤ min (st.pagesVisited + 2) 3) := by
  have hq : ¬ cfg.resultsWanted ≤ st.saved := by
    rw [hsaved]
    omega
  have hb : ¬ cfg.maxPages < st.pagesVisited + 1 := by
    rw [hmp]
    omega
  unfold handleListing
  rw [if_neg hq, if_neg hb]
  obtain ⟨c1, c2, c3, c4, c5, c6⟩ :=
    collectJobLinks_fields links { st with pagesVisited := st.pagesVisited + 1 }
  have hpv3 : (processLinks cfg
      (collectJobLinks { st with pagesVisited := st.pagesVisited + 1 } links).1
      (collectJobLinks { st with pagesVisited := st.pagesVisited + 1 } links).2).pagesVisited =
      st.pagesVisited + 1 := by
    rw [processLinks_pv, c2]
  have hsv3 : (processLinks cfg
      (collectJobLinks { st with pagesVisited := st.pagesVisited + 1 } links).1
      (collectJobLinks { st with pagesVisited := st.pagesVisited + 1 } links).2).saved = 0 := by
    rw [processLinks_saved_cd cfg _ _ hcd, c1]
    exact hsaved
  have hql3 : queueListings (processLinks cfg
      (collectJobLinks { st with pagesVisited := st.pagesVisited + 1 } links).1
      (collectJobLinks { st with pagesVisited := st.pagesVisited + 1 } links).2).queue = [] := by
    rw [processLinks_queueListings, c6]
    exact hqlist
  have hsn3 : ∀ q : Nat, Url.listing b q ∈ (processLinks cfg
      (collectJobLinks { st with pagesVisited := st.pagesVisited + 1 } links).1
      (collectJobLinks { st with pagesVisited := st.pagesVisited + 1 } links).2).seenUrls ↔
      2 ≤ q ∧ q ≤ min (st.pagesVisited + 1) 3 := by
    intro q
    rw [processLinks_seen, collectJobLinks_seen_iff]
    exact hseen q
  unfold paginate
  rw [hpv3, hmp]
  by_cases hlt : st.pagesVisited + 1 < 3
  · rw [if_pos hlt]
    unfold tryEnqueueNextPage
    have hnotseen : Url.listing b (page + 1) ∉ (processLinks cfg
        (collectJobLinks { st with pagesVisited := st.pagesVisited + 1 } links).1
        (collectJobLinks { st with pagesVisited := st.pagesVisited + 1 } links).2).seenUrls := by
      rw [hsn3]
      rw [hpage]
      omega
    rw [if_neg hnotseen]
    refine ⟨hsv3, hpv3, ?_, ?_⟩
    · rw [queueListings_append, hql3]
      rw [if_pos hlt, hpage]
      rfl
    · intro q
      simp only [List.mem_cons]
      rw [hsn3 q]
      constructor
      · rintro (heq | hm)
        · have : q = page + 1 := by
            injection heq with h1 h2
          rw [this, hpage]
          omega
        · omega
      · intro hin
        by_cases hqe : q = page + 1
        · exact Or.inl (by rw [hqe])
        · refine Or.inr ?_
          rw [hpage] at hqe
          omega
  · rw [if_neg hlt]
    refine ⟨hsv3, hpv3, ?_, ?_⟩
    · rw [if_neg hlt]
      exact hql3
    · intro q
      rw [hsn3 q]
      omega

end TotalJobs

namespace TotalJobs

lemma c5_main (cfg : Config) (b : String)
    (hmp : cfg.maxPages = 3) (hcd : cfg.collectDetails = true)
    (hrw : 1 ≤ cfg.resultsWanted) :
    ∀ (st : CrawlState) (ps : List Nat) (st' : CrawlState),
      ListingTrace cfg st ps st' → C5Inv b st →
      C5Inv b st' ∧
      (∀ q ∈ ps, st.pagesVisited + 1 ≤ q ∧ q ≤ 3) ∧
      st.pagesVisited ≤ st'.pagesVisited ∧
      (queueListings st'.queue = [] →
        ps = List.range' (st.pagesVisited + 1) (3 - st.pagesVisited)) := by
  intro st ps st' htr
  induction htr with
  | nil st0 =>
    intro hinv
    refine ⟨hinv, by simp, le_refl _, fun hempty => ?_⟩
    obtain ⟨hs, hp3, hqc, hsn⟩ := hinv
    rw [hqc] at hempty
    rcases Nat.lt_or_ge st0.pagesVisited 3 with h | h
    · rw [if_pos h] at hempty
      simp at hempty
    · have h3 : st0.pagesVisited = 3 := by omega
      rw [h3]
      rfl
  | cons st0 base page att links pre post ps0 st1 hq htail ih =>
    intro hinv
    obtain ⟨hs, hp3, hqc, hsn⟩ := hinv
    have hq2 : queueListings pre ++ (base, page) :: queueListings post =
        (if st0.pagesVisited < 3 then [(b, st0.pagesVisited + 1)] else []) := by
      rw [← hqc, hq, queueListings_append]
      rfl
    by_cases hlt : st0.pagesVisited < 3
    case neg =>
      rw [if_neg hlt] at hq2
      simp at hq2
    case pos =>
    rw [if_pos hlt] at hq2
    have hlen := congrArg List.length hq2
    simp only [List.length_append, List.length_cons, List.length_nil] at hlen
    have hpre : queueListings pre = [] := List.length_eq_zero.1 (by omega)
    have hpost : queueListings post = [] := List.length_eq_zero.1 (by omega)
    rw [hpre, hpost] at hq2
    simp only [List.nil_append, List.cons.injEq, Prod.mk.injEq] at hq2
    obtain ⟨⟨hbase, hpage⟩, -⟩ := hq2
    subst hbase
    have hdq : queueListings (pre ++ post) = [] := by
      rw [queueListings_append, hpre, hpost]
      rfl
    have hstep := c5_step cfg base { st0 with queue := pre ++ post } page links
      hmp hcd hrw hs hlt hpage hdq hsn
    have s1 : (handleListing cfg { st0 with queue := pre ++ post } base page
        links).saved = 0 := hstep.1
    have s2 : (handleListing cfg { st0 with queue := pre ++ post } base page
        links).pagesVisited = st0.pagesVisited + 1 := hstep.2.1
    have s3 : queueListings (handleListing cfg { st0 with queue := pre ++ post }
        base page links).queue =
        (if st0.pagesVisited + 1 < 3 then [(base, st0.pagesVisited + 2)] else []) :=
      hstep.2.2.1
    have s4 : ∀ q : Nat, Url.listing base q ∈
        (handleListing cfg { st0 with queue := pre ++ post } base page
          links).seenUrls ↔ 2 ≤ q ∧ q ≤ min (st0.pagesVisited + 2) 3 := hstep.2.2.2
    have hinv1 : C5Inv base
        (handleListing cfg { st0 with queue := pre ++ post } base page links) := by
      refine ⟨s1, by rw [s2]; omega, ?_, ?_⟩
      · rw [s3, s2]
      · intro q
        rw [s2]
        exact s4 q
    obtain ⟨hinv', hqs, hpvm, hcomp⟩ := ih hinv1
    refine ⟨hinv', ?_, ?_, ?_⟩
    · intro q hqmem
      rcases List.mem_cons.1 hqmem with rfl | hmem
      · omega
      · have hb2 := hqs q hmem
        rw [s2] at hb2
        omega
    · rw [s2] at hpvm
      omega
    · intro hempty
      have hps0 := hcomp hempty
      rw [s2] at hps0
      rw [hps0, hpage]
      have h3 : 3 - st0.pagesVisited = (3 - (st0.pagesVisited + 1)) + 1 := by omega
      rw [h3, List.range'_succ]

theorem pagination_termination (cfg : Config) (b : String)
    (hmp : cfg.maxPages = 3) (hcd : cfg.collectDetails = true)
    (hrw : 1 ≤ cfg.resultsWanted) :
    ∀ (ps : List Nat) (st' : CrawlState),
      ListingTrace cfg (initialState b) ps st' →
      (∀ q ∈ ps, 1 ≤ q ∧ q ≤ 3) ∧
      Url.listing b 4 ∉ st'.seenUrls ∧
      (∀ att : Nat, Target.listingT b 4 att ∉ st'.queue) ∧
      (queueListings st'.queue = [] → ps = [1, 2, 3]) := by
  intro ps st' htr
  have hinv0 : C5Inv b (initialState b) := by
    refine ⟨rfl, show (0:Nat) ≤ 3 by omega, rfl, fun q => ?_⟩
    constructor
    · intro hmem
      simp [initialState] at hmem
    · intro hb2
      exfalso
      have hb3 : (2:Nat) ≤ q ∧ q ≤ min (0 + 1) 3 := hb2
      omega
  obtain ⟨hinv', hqs, hpvm, hcomp⟩ :=
    c5_main cfg b hmp hcd hrw (initialState b) ps st' htr hinv0
  obtain ⟨hs', hp3', hqc', hsn'⟩ := hinv'
  refine ⟨fun q hqm => ?_, ?_, fun att hmem => ?_, fun hempty => ?_⟩
  · have hq1 : (0:Nat) + 1 ≤ q ∧ q ≤ 3 := hqs q hqm
    exact ⟨by omega, hq1.2⟩
  · intro hmem
    have := (hsn' 4).1 hmem
    omega
  · have hmem2 : (b, 4) ∈ queueListings st'.queue := by
      unfold queueListings
      exact List.mem_filterMap.2 ⟨Target.listingT b 4 att, hmem, rfl⟩
    rw [hqc'] at hmem2
    split_ifs at hmem2 with h
    · simp at hmem2
      omega
    · simp at hmem2
  · have := hcomp hempty
    rw [this]
    rfl

end TotalJobs

namespace TotalJobs

theorem pagination_termination_witness :
    Url.listing "s" 4 ∉ demoState3.seenUrls ∧
    (∀ att : Nat, Target.listingT "s" 4 att ∉ demoState3.queue) := by
  have htr : ListingTrace cfg3 (initialState "s") [1, 2, 3] demoState3 :=
    ListingTrace.cons _ "s" 1 0 [] [] [] _ _ rfl
      (ListingTrace.cons _ "s" 2 0 [] [] [] _ _ (by decide)
        (ListingTrace.cons _ "s" 3 0 [] [] [] _ _ (by decide)
          (ListingTrace.nil demoState3)))
  have h := pagination_termination cfg3 "s" rfl rfl (by decide) [1, 2, 3] demoState3 htr
  exact ⟨h.2.1, h.2.2.1⟩

end TotalJobs
